import Mathlib

/-!
Verification of the agent request-routing and tool-process orchestration core
(agent manager, MCP/tool-process integration, tool wrapper, websocket/SSE
fanout) against its design specification.

The Python code is shallowly embedded: Python dicts become association
lists with unique keys, uuid generation becomes a fresh-id counter,
asynchronous effects (subprocess reads, websocket sends, queue puts) become
explicit outcome parameters, and exception control flow becomes Except /
explicit branch results.
-/

namespace Agentic

/-! ## Association-list model of Python dicts -/

/-- Lookup in an association list; models `d[k]` / `d.get(k)`. -/
def dget {κ α : Type} [DecidableEq κ] : List (κ × α) → κ → Option α
  | [], _ => none
  | (k, v) :: rest, k0 => if k = k0 then some v else dget rest k0

/-- Insert or replace a key; models `d[k] = v`. -/
def dset {κ α : Type} [DecidableEq κ] : List (κ × α) → κ → α → List (κ × α)
  | [], k0, v0 => [(k0, v0)]
  | (k, v) :: rest, k0, v0 =>
      if k = k0 then (k0, v0) :: rest else (k, v) :: dset rest k0 v0

/-- Delete a key (identity when absent); models `if k in d: del d[k]`. -/
def ddel {κ α : Type} [DecidableEq κ] : List (κ × α) → κ → List (κ × α)
  | [], _ => []
  | (k, v) :: rest, k0 =>
      if k = k0 then ddel rest k0 else (k, v) :: ddel rest k0

/-- Update the value at a key when present; models
`if k in d: mutate d[k]`. -/
def dmodify {κ α : Type} [DecidableEq κ] : List (κ × α) → κ → (α → α) → List (κ × α)
  | [], _, _ => []
  | (k, v) :: rest, k0, f =>
      if k = k0 then (k, f v) :: dmodify rest k0 f else (k, v) :: dmodify rest k0 f

theorem dget_dset_self {κ α : Type} [DecidableEq κ]
    (l : List (κ × α)) (k : κ) (v : α) : dget (dset l k v) k = some v := by
  induction l with
  | nil => simp [dget, dset]
  | cons p rest ih =>
      by_cases h : p.1 = k
      · simp [dset, dget, h]
      · simp [dset, dget, h, ih]

theorem dget_dset_ne {κ α : Type} [DecidableEq κ]
    (l : List (κ × α)) (k k0 : κ) (v : α) (h : k ≠ k0) :
    dget (dset l k v) k0 = dget l k0 := by
  induction l with
  | nil => simp [dget, dset, h]
  | cons p rest ih =>
      by_cases hp : p.1 = k
      · simp [dset, dget, hp, h]
      · simp [dset, dget, hp, ih]

theorem dget_ddel_self {κ α : Type} [DecidableEq κ]
    (l : List (κ × α)) (k : κ) : dget (ddel l k) k = none := by
  induction l with
  | nil => simp [dget, ddel]
  | cons p rest ih =>
      by_cases h : p.1 = k
      · simp [ddel, h, ih]
      · simp [ddel, dget, h, ih]

theorem dget_ddel_ne {κ α : Type} [DecidableEq κ]
    (l : List (κ × α)) (k k0 : κ) (h : k ≠ k0) :
    dget (ddel l k) k0 = dget l k0 := by
  induction l with
  | nil => simp [ddel]
  | cons p rest ih =>
      obtain ⟨a, b⟩ := p
      by_cases hp : a = k
      · simp [ddel, dget, hp, h, ih]
      · by_cases hp0 : a = k0
        · simp [ddel, dget, hp, hp0, Ne.symm h]
        · simp [ddel, dget, hp, hp0, ih]

theorem dget_mem {κ α : Type} [DecidableEq κ]
    (l : List (κ × α)) (k : κ) (v : α) (h : dget l k = some v) : (k, v) ∈ l := by
  induction l with
  | nil => simp [dget] at h
  | cons p rest ih =>
      obtain ⟨a, b⟩ := p
      by_cases hp : a = k
      · simp [dget, hp] at h
        subst hp
        subst h
        exact List.mem_cons_self _ _
      · simp [dget, hp] at h
        exact List.mem_cons_of_mem _ (ih h)

/-! ## Claim C1 — agent selection (AgentManager._select_optimal_agent) -/

/-- Lowercase a string character by character; models `message.lower()`. -/
def lowerStr (s : String) : String := String.mk (s.data.map Char.toLower)

/-- Substring test on character lists. -/
def isSubList (needle hay : List Char) : Bool :=
  match hay with
  | [] => needle.isEmpty
  | _ :: t => needle.isPrefixOf hay || isSubList needle t

/-- Python `needle in hay` on strings. -/
def strContains (hay needle : String) : Bool := isSubList needle.data hay.data

/-- Keywords routed to the browser specialist (source line 521). -/
def browserKeywords : List String :=
  ["website", "browser", "navigate", "click", "screenshot", "scrape"]

/-- Keywords routed to the data analyst (source line 525). -/
def dataKeywords : List String :=
  ["analyze", "data", "chart", "statistics", "csv", "excel", "graph"]

/-- Keywords routed to the workflow orchestrator (source line 529). -/
def workflowKeywords : List String :=
  ["workflow", "multiple steps", "coordinate", "orchestrate", "complex task"]

/-- Embedding of `AgentManager._select_optimal_agent(agent_type, tools, message)`:
the first-match rule chain over the lowercased message, then tool hints,
then the explicit agent-type hint, then the generic fallback. -/
def selectOptimalAgent (agentType : String) (tools : List String) (message : String) :
    String :=
  let messageLower := lowerStr message
  if browserKeywords.any (fun k => strContains messageLower k) then "browser_specialist"
  else if dataKeywords.any (fun k => strContains messageLower k) then "data_analyst"
  else if workflowKeywords.any (fun k => strContains messageLower k) then
    "workflow_orchestrator"
  else if tools.contains "browser_automation" then "browser_specialist"
  else if ["data_processing", "visualization"].any (fun t => tools.contains t) then
    "data_analyst"
  else if agentType = "browser" then "browser_specialist"
  else if agentType = "analysis" then "data_analyst"
  else if agentType = "workflow" then "workflow_orchestrator"
  else "general_assistant"

/-- Modelled from the specification words of the claim: a deterministic
first-match rule chain — (1) browser/data/workflow keyword match against
the lowercased message selects the browser, data, or workflow agent
respectively; (2) otherwise tool hints select the specialized agent;
(3) otherwise the explicit agent-type hint; (4) otherwise the generic
agent. Compared against `selectOptimalAgent` for the refinement claim. -/
def selectAgentSpec (agentType : String) (tools : List String) (message : String) :
    String :=
  let messageLower := lowerStr message
  if browserKeywords.any (fun k => strContains messageLower k) then "browser_specialist"
  else if dataKeywords.any (fun k => strContains messageLower k) then "data_analyst"
  else if workflowKeywords.any (fun k => strContains messageLower k) then
    "workflow_orchestrator"
  else if tools.contains "browser_automation" then "browser_specialist"
  else if tools.contains "data_processing" || tools.contains "visualization" then
    "data_analyst"
  else if agentType = "browser" then "browser_specialist"
  else if agentType = "analysis" then "data_analyst"
  else if agentType = "workflow" then "workflow_orchestrator"
  else "general_assistant"

/-! ## Agent manager state (AgentManager) -/

/-- Agent instance status (enum AgentStatus). -/
inductive AgentStatus where
  | idle
  | busy
  | error
  | offline
deriving DecidableEq, Repr

/-- Running agent instance (class AgentInstance); the instance id is the
dict key, kept in the record as in the source. -/
structure AgentInstance where
  instanceId : Nat
  agentId : String
  sessionId : String
  status : AgentStatus
  currentTask : Option String
  startTime : Nat
  lastActivity : Nat
  messageCount : Nat
  errorCount : Nat
deriving DecidableEq, Repr

/-- Agent performance metrics (class AgentMetrics). Latency is modelled
with rationals in place of floats. -/
structure AgentMetrics where
  totalRequests : Nat
  successfulRequests : Nat
  failedRequests : Nat
  averageResponseTime : ℚ
deriving DecidableEq, Repr

/-- Fresh metrics record (AgentMetrics defaults). -/
def AgentMetrics.init : AgentMetrics := ⟨0, 0, 0, 0⟩

/-- Mutable state of AgentManager relevant to the claims: the instance
registry (`self.instances`), the session-to-instance map
(`self.session_agents`), per-agent metrics (`self.metrics`), and a fresh-id
counter modelling `uuid.uuid4()` uniqueness. -/
structure AgentManagerState where
  instances : List (Nat × AgentInstance)
  sessionAgents : List (String × Nat)
  metrics : List (String × AgentMetrics)
  nextId : Nat
deriving DecidableEq, Repr

/-- Create a fresh AgentInstance and bind the session to it (the tail of
`AgentManager._get_or_create_instance`, lines 559-572). -/
def createInstance (st : AgentManagerState) (agentId sessionId : String) (now : Nat) :
    Nat × AgentManagerState :=
  let iid := st.nextId
  let inst : AgentInstance :=
    ⟨iid, agentId, sessionId, AgentStatus.idle, none, now, now, 0, 0⟩
  (iid, { st with
            instances := dset st.instances iid inst
            sessionAgents := dset st.sessionAgents sessionId iid
            nextId := st.nextId + 1 })

/-- Embedding of `AgentManager._get_or_create_instance(agent_id, session_id)`
(lines 550-572): reuse the instance the session is already bound to when it
still exists, otherwise create a fresh one. -/
def getOrCreateInstance (st : AgentManagerState) (agentId sessionId : String)
    (now : Nat) : Nat × AgentManagerState :=
  match dget st.sessionAgents sessionId with
  | some iid =>
      if (dget st.instances iid).isSome then (iid, st)
      else createInstance st agentId sessionId now
  | none => createInstance st agentId sessionId now

/-- Embedding of `AgentManager._update_metrics(agent_id, response_time,
success)` (lines 574-588). -/
def updateMetrics (st : AgentManagerState) (agentId : String) (responseTime : ℚ)
    (success : Bool) : AgentManagerState :=
  let m :=
    match dget st.metrics agentId with
    | some m => m
    | none => AgentMetrics.init
  let m1 := { m with totalRequests := m.totalRequests + 1 }
  let m2 :=
    if success then
      { m1 with
          successfulRequests := m1.successfulRequests + 1
          averageResponseTime :=
            (m1.averageResponseTime * (m1.successfulRequests : ℚ) + responseTime) /
              ((m1.successfulRequests : ℚ) + 1) }
    else
      { m1 with failedRequests := m1.failedRequests + 1 }
  { st with metrics := dset st.metrics agentId m2 }

/-- Embedding of `AgentManager._execute_agent_logic` (lines 365-404): the
whole body runs inside a try, so any exception raised by the
behavior-specific execution (modelled by `behaviorResult`) is caught and
converted into an apology string; the function itself never raises. -/
def executeAgentLogic (behaviorResult : Except String String) : String :=
  match behaviorResult with
  | Except.ok s => s
  | Except.error e =>
      "I apologize, but I encountered an error while processing your request: " ++ e

/-- Embedding of `AgentManager._process_agent_request` (lines 309-363).
`agentKnown` models whether `self.agents[agent_id]` succeeds (the only
statement of the try body that can raise once the task envelope is well
formed, since `_execute_agent_logic` and `send_message` both catch
internally); `behaviorResult` models the outcome of behavior-specific
execution inside `_execute_agent_logic`. Returns the new state and the
response text sent over the websocket (none on the error path, which sends
nothing). -/
def processAgentRequest (st : AgentManagerState) (agentId : String)
    (agentKnown : Bool) (iid : Nat) (message : String) (now : Nat)
    (behaviorResult : Except String String) (responseTime : ℚ) :
    AgentManagerState × Option String :=
  let st1 := { st with
                 instances := dmodify st.instances iid (fun inst =>
                   { inst with
                       status := AgentStatus.busy
                       currentTask := some (message.take 100)
                       lastActivity := now }) }
  if agentKnown then
    let response := executeAgentLogic behaviorResult
    let st2 := updateMetrics st1 agentId responseTime true
    let st3 := { st2 with
                   instances := dmodify st2.instances iid (fun inst =>
                     { inst with
                         status := AgentStatus.idle
                         currentTask := none
                         messageCount := inst.messageCount + 1
                         lastActivity := now }) }
    (st3, some response)
  else
    let st2 := updateMetrics st1 agentId 0 false
    let st3 := { st2 with
                   instances := dmodify st2.instances iid (fun inst =>
                     { inst with
                         status := AgentStatus.error
                         errorCount := inst.errorCount + 1 }) }
    (st3, none)

/-- One task pulled from an agent queue by the worker loop. -/
structure WorkerTask where
  agentKnown : Bool
  iid : Nat
  message : String
  now : Nat
  behaviorResult : Except String String
  responseTime : ℚ

/-- Embedding of the worker loop `AgentManager._agent_worker` (lines
290-307) run over a finite task list: the loop wraps each iteration in a
try/except and always continues to the next task. -/
def agentWorkerRun (agentId : String) (st : AgentManagerState)
    (tasks : List WorkerTask) : AgentManagerState :=
  tasks.foldl
    (fun s t =>
      (processAgentRequest s agentId t.agentKnown t.iid t.message t.now
          t.behaviorResult t.responseTime).1)
    st

/-- Deletion loop body of one pass of the idle-expiry sweep
`AgentManager._cleanup_expired_instances` (lines 616-639): remove one
expired instance together with its session binding. `ddel` is the identity
on an absent key, matching the `if instance.session_id in
self.session_agents` guard, and since dict keys are unique the loop body
sees exactly the instances collected by the filter. -/
def cleanupStep (s : AgentManagerState) (p : Nat × AgentInstance) :
    AgentManagerState :=
  { s with
      sessionAgents := ddel s.sessionAgents p.2.sessionId
      instances := ddel s.instances p.1 }

/-- The sweep itself: filter the expired instances, then delete each one
together with its session binding via `cleanupStep`. -/
def cleanupExpiredInstances (st : AgentManagerState) (now : Nat) :
    AgentManagerState :=
  let expired := st.instances.filter (fun p => 3600 < now - p.2.lastActivity)
  expired.foldl cleanupStep st

/-! ## Theorems for claim C1 -/

/-- C1: agent selection is the deterministic first-match rule chain of the
claim — keyword match (browser, data, workflow) on the lowercased message,
then tool hints (browser_automation, then data_processing/visualization),
then the explicit agent-type hint (browser/analysis/workflow), then the
generic agent `general_assistant` — and on the three example inputs it
selects the browser agent, the data agent, and the generic agent. -/
theorem selectOptimalAgent_rule_chain :
    (∀ (agentType : String) (tools : List String) (message : String),
        selectOptimalAgent agentType tools message =
          selectAgentSpec agentType tools message) ∧
    selectOptimalAgent "default" [] "please screenshot this page" =
      "browser_specialist" ∧
    selectOptimalAgent "default" [] "analyze this csv file" = "data_analyst" ∧
    selectOptimalAgent "default" [] "hello" = "general_assistant" := by
  refine ⟨fun agentType tools message => ?_, by decide, by decide, by decide⟩
  simp [selectOptimalAgent, selectAgentSpec]

/-! ## Lemmas on instance binding (C4, C5) -/

theorem dget_dmodify_self {κ α : Type} [DecidableEq κ]
    (l : List (κ × α)) (k : κ) (f : α → α) :
    dget (dmodify l k f) k = Option.map f (dget l k) := by
  induction l with
  | nil => simp [dget, dmodify]
  | cons p rest ih =>
      obtain ⟨a, b⟩ := p
      by_cases hp : a = k
      · subst hp
        simp [dmodify, dget]
      · simp [dmodify, dget, hp, ih]

/-- After a dispatch, the session is bound to the returned instance id and
that instance exists. -/
theorem getOrCreate_binds (st : AgentManagerState) (agentId sessionId : String)
    (now : Nat) :
    dget (getOrCreateInstance st agentId sessionId now).2.sessionAgents sessionId =
        some (getOrCreateInstance st agentId sessionId now).1 ∧
      (dget (getOrCreateInstance st agentId sessionId now).2.instances
          (getOrCreateInstance st agentId sessionId now).1).isSome := by
  unfold getOrCreateInstance createInstance
  cases hs : dget st.sessionAgents sessionId with
  | none => simp [dget_dset_self]
  | some iid =>
      cases hi : (dget st.instances iid).isSome with
      | true => simp [hi, hs]
      | false => simp [hi, dget_dset_self]

/-- A dispatch for a session already bound to a live instance returns that
instance id and leaves the state unchanged, whatever agent was selected. -/
theorem getOrCreate_stable (st : AgentManagerState) (agentId sessionId : String)
    (now iid : Nat) (hs : dget st.sessionAgents sessionId = some iid)
    (hi : (dget st.instances iid).isSome = true) :
    getOrCreateInstance st agentId sessionId now = (iid, st) := by
  unfold getOrCreateInstance
  simp [hs, hi]

/-- Sequence of submissions for one session: each submission resolves an
instance id through `_get_or_create_instance`; returns the resolved ids in
order and the final state. -/
def resolveSeq (st : AgentManagerState) (sessionId : String) :
    List (String × Nat) → List Nat × AgentManagerState
  | [] => ([], st)
  | (a, n) :: rest =>
      let r := getOrCreateInstance st a sessionId n
      let rr := resolveSeq r.2 sessionId rest
      (r.1 :: rr.1, rr.2)

theorem resolveSeq_constant (st : AgentManagerState) (sessionId : String)
    (iid : Nat) (hs : dget st.sessionAgents sessionId = some iid)
    (hi : (dget st.instances iid).isSome = true) :
    ∀ subs : List (String × Nat),
      resolveSeq st sessionId subs = (List.replicate subs.length iid, st) := by
  intro subs
  induction subs with
  | nil => simp [resolveSeq]
  | cons p rest ih =>
      obtain ⟨a, n⟩ := p
      simp [resolveSeq, getOrCreate_stable st a sessionId n iid hs hi, ih,
        List.replicate_succ]

/-! ## Theorems for claim C5 -/

/-- C5: instance binding is idempotent — for any state and any sequence of
submissions carrying the same session id (with no sweep or completion in
between), every submission after the first resolves to the instance id the
first submission resolved, so all N submissions yield one id. -/
theorem resolveSeq_idempotent (st : AgentManagerState) (sessionId : String)
    (firstAgent : String) (firstNow : Nat) (rest : List (String × Nat)) :
    (resolveSeq st sessionId ((firstAgent, firstNow) :: rest)).1 =
      List.replicate (rest.length + 1)
        (getOrCreateInstance st firstAgent sessionId firstNow).1 := by
  have hb := getOrCreate_binds st firstAgent sessionId firstNow
  simp [resolveSeq,
    resolveSeq_constant (getOrCreateInstance st firstAgent sessionId firstNow).2
      sessionId (getOrCreateInstance st firstAgent sessionId firstNow).1 hb.1 hb.2
      rest, List.replicate_succ]

/-! ## Theorems for claim C4 -/

/-- C4 counterexample: from the empty state, dispatching session s1 to the
browser specialist and then dispatching the same session to the data
analyst returns the SAME instance id, and that instance is still owned by
the browser specialist — the registry is keyed by session alone, so the
claimed distinct per-(session, agent) instance does not exist. -/
theorem sessionBinding_ignores_agent_counterexample :
    (getOrCreateInstance
        (getOrCreateInstance ⟨[], [], [], 0⟩ "browser_specialist" "s1" 0).2
        "data_analyst" "s1" 0).1 =
      (getOrCreateInstance ⟨[], [], [], 0⟩ "browser_specialist" "s1" 0).1 ∧
    dget (getOrCreateInstance
        (getOrCreateInstance ⟨[], [], [], 0⟩ "browser_specialist" "s1" 0).2
        "data_analyst" "s1" 0).2.instances 0 =
      some ⟨0, "browser_specialist", "s1", AgentStatus.idle, none, 0, 0, 0, 0⟩ := by
  constructor <;> decide

/-- C4 amended: at most one instance exists per SESSION (not per
(session, agent) pair): an instance is created lazily on the first dispatch
of a session — owned by the agent of that first dispatch — and any later
dispatch of the same session, to the same or to a different agent, resolves
to that same instance without creating another. -/
theorem instanceBinding_per_session (st : AgentManagerState)
    (agentId sessionId : String) (now : Nat) :
    (dget st.sessionAgents sessionId = none →
      (getOrCreateInstance st agentId sessionId now).1 = st.nextId ∧
      dget (getOrCreateInstance st agentId sessionId now).2.instances st.nextId =
        some ⟨st.nextId, agentId, sessionId, AgentStatus.idle, none, now, now, 0, 0⟩) ∧
    (∀ iid, dget st.sessionAgents sessionId = some iid →
      (dget st.instances iid).isSome = true →
      ∀ otherAgent, getOrCreateInstance st otherAgent sessionId now = (iid, st)) := by
  constructor
  · intro hnone
    unfold getOrCreateInstance createInstance
    simp [hnone, dget_dset_self]
  · intro iid hs hi otherAgent
    exact getOrCreate_stable st otherAgent sessionId now iid hs hi

/-- Witness for the amended C4 theorem at a concrete state. -/
theorem instanceBinding_per_session_witness :
    (getOrCreateInstance ⟨[], [], [], 0⟩ "browser_specialist" "s1" 7).1 = 0 ∧
    dget (getOrCreateInstance ⟨[], [], [], 0⟩ "browser_specialist" "s1" 7).2.instances
        0 =
      some ⟨0, "browser_specialist", "s1", AgentStatus.idle, none, 7, 7, 0, 0⟩ :=
  (instanceBinding_per_session ⟨[], [], [], 0⟩ "browser_specialist" "s1" 7).1
    (by decide)

/-! ## Lemmas on the idle-expiry sweep (C6) -/

theorem cleanupFold_instances (l : List (Nat × AgentInstance)) :
    ∀ (st : AgentManagerState) (i : Nat),
      dget (l.foldl cleanupStep st).instances i =
        if l.any (fun p => p.1 == i) then none else dget st.instances i := by
  induction l with
  | nil => intro st i; simp
  | cons p rest ih =>
      intro st i
      rw [List.foldl_cons, ih]
      by_cases hp : p.1 = i
      · simp [cleanupStep, hp, dget_ddel_self]
      · have hb : (p.1 == i) = false := by simpa using hp
        cases hany : rest.any (fun p => p.1 == i) <;>
          simp [cleanupStep, hany, hb, dget_ddel_ne st.instances p.1 i hp]

theorem cleanupFold_sessions (l : List (Nat × AgentInstance)) :
    ∀ (st : AgentManagerState) (s : String),
      dget (l.foldl cleanupStep st).sessionAgents s =
        if l.any (fun p => p.2.sessionId == s) then none
        else dget st.sessionAgents s := by
  induction l with
  | nil => intro st s; simp
  | cons p rest ih =>
      intro st s
      rw [List.foldl_cons, ih]
      by_cases hp : p.2.sessionId = s
      · simp [cleanupStep, hp, dget_ddel_self]
      · have hb : (p.2.sessionId == s) = false := by simpa using hp
        cases hany : rest.any (fun p => p.2.sessionId == s) <;>
          simp [cleanupStep, hany, hb,
            dget_ddel_ne st.sessionAgents p.2.sessionId s hp]

theorem cleanupFold_nextId (l : List (Nat × AgentInstance)) :
    ∀ st : AgentManagerState, (l.foldl cleanupStep st).nextId = st.nextId := by
  induction l with
  | nil => intro st; rfl
  | cons p rest ih => intro st; rw [List.foldl_cons, ih]; rfl

theorem cleanupExpired_eq (st : AgentManagerState) (now : Nat) :
    cleanupExpiredInstances st now =
      (st.instances.filter (fun p => 3600 < now - p.2.lastActivity)).foldl
        cleanupStep st := rfl

/-! ## Theorems for claim C6 -/

/-- C6: the idle-expiry sweep removes every instance idle for more than the
one-hour threshold together with its session binding; after the sweep no
removed instance is reachable from the session mapping (every id the
mapping still reaches belongs to a surviving, non-expired instance); and a
subsequent submission for an expired session creates a fresh instance whose
id is new and distinct from the removed one. Hypotheses: instance keys are
functional, the session mapping is consistent with the instance registry,
and all instance ids are below the fresh-id counter. -/
theorem cleanupExpired_correct (st : AgentManagerState) (now : Nat)
    (hfun : ∀ p ∈ st.instances, dget st.instances p.1 = some p.2)
    (hcons : ∀ s i, dget st.sessionAgents s = some i →
        ∃ inst, dget st.instances i = some inst ∧ inst.sessionId = s)
    (hbound : ∀ p ∈ st.instances, p.1 < st.nextId) :
    (∀ i inst, dget st.instances i = some inst →
        3600 < now - inst.lastActivity →
        dget (cleanupExpiredInstances st now).instances i = none ∧
        dget (cleanupExpiredInstances st now).sessionAgents inst.sessionId =
          none) ∧
    (∀ s i, dget (cleanupExpiredInstances st now).sessionAgents s = some i →
        ∃ inst, dget (cleanupExpiredInstances st now).instances i = some inst ∧
          inst.sessionId = s ∧ ¬ 3600 < now - inst.lastActivity) ∧
    (∀ i inst (agentId : String) (n : Nat), dget st.instances i = some inst →
        3600 < now - inst.lastActivity →
        (getOrCreateInstance (cleanupExpiredInstances st now) agentId
            inst.sessionId n).1 = st.nextId ∧
        (getOrCreateInstance (cleanupExpiredInstances st now) agentId
            inst.sessionId n).1 ≠ i) := by
  rw [cleanupExpired_eq]
  set E := st.instances.filter (fun p => 3600 < now - p.2.lastActivity) with hE
  have hEmem : ∀ i inst, dget st.instances i = some inst →
      3600 < now - inst.lastActivity → (i, inst) ∈ E := by
    intro i inst h hexp
    rw [hE]
    exact List.mem_filter.mpr ⟨dget_mem _ _ _ h, by simpa using hexp⟩
  have part1 : ∀ i inst, dget st.instances i = some inst →
      3600 < now - inst.lastActivity →
      dget (E.foldl cleanupStep st).instances i = none ∧
      dget (E.foldl cleanupStep st).sessionAgents inst.sessionId = none := by
    intro i inst h hexp
    have hm := hEmem i inst h hexp
    constructor
    · rw [cleanupFold_instances]
      have : E.any (fun p => p.1 == i) = true :=
        List.any_eq_true.mpr ⟨(i, inst), hm, by simp⟩
      simp [this]
    · rw [cleanupFold_sessions]
      have : E.any (fun p => p.2.sessionId == inst.sessionId) = true :=
        List.any_eq_true.mpr ⟨(i, inst), hm, by simp⟩
      simp [this]
  refine ⟨part1, ?_, ?_⟩
  · intro s i h
    rw [cleanupFold_sessions] at h
    by_cases hany : E.any (fun p => p.2.sessionId == s) = true
    · simp [hany] at h
    · rw [if_neg hany] at h
      obtain ⟨inst, hi, hsid⟩ := hcons s i h
      have hnotexp : ¬ 3600 < now - inst.lastActivity := by
        intro hexp
        exact hany (List.any_eq_true.mpr
          ⟨(i, inst), hEmem i inst hi hexp, by simp [hsid]⟩)
      refine ⟨inst, ?_, hsid, hnotexp⟩
      rw [cleanupFold_instances]
      have hanyI : ¬ E.any (fun p => p.1 == i) = true := by
        intro hI
        obtain ⟨p, hpE, hpi⟩ := List.any_eq_true.mp hI
        have hpmem : p ∈ st.instances := List.mem_filter.mp (hE ▸ hpE) |>.1
        have hpd := hfun p hpmem
        have hpi' : p.1 = i := by simpa using hpi
        rw [hpi', hi] at hpd
        have hp2 : p.2 = inst := by
          injection hpd with h2
          exact h2.symm
        have hpexp : 3600 < now - p.2.lastActivity := by
          have := List.mem_filter.mp (hE ▸ hpE) |>.2
          simpa using this
        rw [hp2] at hpexp
        exact hnotexp hpexp
      rw [if_neg hanyI]
      exact hi
  · intro i inst agentId n h hexp
    have hm := part1 i inst h hexp
    have hfresh : (getOrCreateInstance (E.foldl cleanupStep st) agentId
        inst.sessionId n).1 = (E.foldl cleanupStep st).nextId := by
      unfold getOrCreateInstance createInstance
      simp [hm.2]
    have hnx : (E.foldl cleanupStep st).nextId = st.nextId :=
      cleanupFold_nextId E st
    have hib : i < st.nextId := hbound (i, inst) (dget_mem _ _ _ h)
    constructor
    · rw [hfresh, hnx]
    · rw [hfresh, hnx]
      omega

/-- Concrete instance used by the C6 witness. -/
def instC6 : AgentInstance :=
  ⟨0, "general_assistant", "sessA", AgentStatus.idle, none, 0, 0, 0, 0⟩

/-- Concrete manager state used by the C6 witness. -/
def stC6 : AgentManagerState := ⟨[(0, instC6)], [("sessA", 0)], [], 1⟩

/-- Witness for the C6 theorem on a concrete expired instance. -/
theorem cleanupExpired_correct_witness :
    dget (cleanupExpiredInstances stC6 5000).instances 0 = none ∧
    dget (cleanupExpiredInstances stC6 5000).sessionAgents "sessA" = none ∧
    (getOrCreateInstance (cleanupExpiredInstances stC6 5000) "general_assistant"
        "sessA" 6000).1 ≠ 0 := by
  have hfun : ∀ p ∈ stC6.instances, dget stC6.instances p.1 = some p.2 := by
    intro p hp
    simp [stC6] at hp
    subst hp
    decide
  have hcons : ∀ s i, dget stC6.sessionAgents s = some i →
      ∃ inst, dget stC6.instances i = some inst ∧ inst.sessionId = s := by
    intro s i h
    by_cases hs : "sessA" = s
    · subst hs
      simp [stC6, dget] at h
      subst h
      exact ⟨instC6, by decide, by decide⟩
    · simp [stC6, dget, hs] at h
  have hbound : ∀ p ∈ stC6.instances, p.1 < stC6.nextId := by
    intro p hp
    simp [stC6] at hp
    subst hp
    decide
  have h := cleanupExpired_correct stC6 5000 hfun hcons hbound
  have h1 := h.1 0 instC6 (by decide) (by decide)
  have h3 := h.2.2 0 instC6 "general_assistant" 6000 (by decide) (by decide)
  exact ⟨h1.1, h1.2, h3.2⟩

/-! ## Theorems for claim C2 -/

/-- Concrete instance used by the C2 theorems. -/
def instC2 : AgentInstance :=
  ⟨0, "general_assistant", "sess2", AgentStatus.idle, none, 0, 0, 0, 0⟩

/-- Concrete manager state used by the C2 theorems. -/
def stC2 : AgentManagerState :=
  ⟨[(0, instC2)], [("sess2", 0)], [("general_assistant", AgentMetrics.init)], 1⟩

/-- C2 counterexample: a task whose behavior execution raises does NOT take
the worker's error path — `_execute_agent_logic` catches the exception and
returns an apology string, so the request is recorded as a success: the
instance ends `idle` with its error counter still 0, the metrics record one
successful request and zero failed requests, and the apology is sent as the
response. This contradicts the claim that such a failure sets the instance
to `error`, increments its error counter and records a metrics failure. -/
theorem behaviorFailure_success_path_counterexample :
    dget (processAgentRequest stC2 "general_assistant" true 0 "do the thing" 10
        (Except.error "boom") 2).1.instances 0 =
      some ⟨0, "general_assistant", "sess2", AgentStatus.idle, none, 0, 10, 1, 0⟩ ∧
    Option.map (fun m : AgentMetrics =>
        (m.totalRequests, m.successfulRequests, m.failedRequests))
      (dget (processAgentRequest stC2 "general_assistant" true 0 "do the thing" 10
          (Except.error "boom") 2).1.metrics "general_assistant") =
      some (1, 1, 0) ∧
    (processAgentRequest stC2 "general_assistant" true 0 "do the thing" 10
        (Except.error "boom") 2).2 =
      some
        "I apologize, but I encountered an error while processing your request: boom" := by
  refine ⟨?_, ?_, ?_⟩ <;> decide

/-- C2 amended: an exception raised by behavior execution is caught inside
`_execute_agent_logic` and converted into an apology response that then
follows the success path — instance back to `idle`, message counter
incremented, error counter unchanged, metrics record a success and no
failure. The worker error path (instance to `error`, error counter and
failed-request counter incremented, successful count unchanged, nothing
sent) runs only when a statement OUTSIDE behavior execution raises (here:
the agent-config lookup). The worker loop itself processes each task in a
try/except and always continues with the remaining tasks. -/
theorem processAgentRequest_failure_paths (st : AgentManagerState)
    (agentId : String) (iid : Nat) (message : String) (now : Nat) (e : String)
    (rt : ℚ) (inst : AgentInstance) (brAny : Except String String)
    (hinst : dget st.instances iid = some inst) :
    ((processAgentRequest st agentId true iid message now (Except.error e) rt).2 =
        some ("I apologize, but I encountered an error while processing your request: "
          ++ e) ∧
      dget (processAgentRequest st agentId true iid message now (Except.error e)
          rt).1.instances iid =
        some { inst with
                 status := AgentStatus.idle
                 currentTask := none
                 messageCount := inst.messageCount + 1
                 lastActivity := now } ∧
      ∃ m2, dget (processAgentRequest st agentId true iid message now
            (Except.error e) rt).1.metrics agentId = some m2 ∧
        m2.successfulRequests =
          ((dget st.metrics agentId).getD AgentMetrics.init).successfulRequests + 1 ∧
        m2.failedRequests =
          ((dget st.metrics agentId).getD AgentMetrics.init).failedRequests) ∧
    ((processAgentRequest st agentId false iid message now brAny rt).2 = none ∧
      dget (processAgentRequest st agentId false iid message now
          brAny rt).1.instances iid =
        some { inst with
                 status := AgentStatus.error
                 currentTask := some (message.take 100)
                 lastActivity := now
                 errorCount := inst.errorCount + 1 } ∧
      ∃ m2, dget (processAgentRequest st agentId false iid message now
            brAny rt).1.metrics agentId = some m2 ∧
        m2.failedRequests =
          ((dget st.metrics agentId).getD AgentMetrics.init).failedRequests + 1 ∧
        m2.successfulRequests =
          ((dget st.metrics agentId).getD AgentMetrics.init).successfulRequests) ∧
    (∀ (t : WorkerTask) (ts : List WorkerTask),
      agentWorkerRun agentId st (t :: ts) =
        agentWorkerRun agentId
          (processAgentRequest st agentId t.agentKnown t.iid t.message t.now
              t.behaviorResult t.responseTime).1 ts) := by
  refine ⟨⟨?_, ?_, ?_⟩, ⟨?_, ?_, ?_⟩, fun t ts => rfl⟩
  · simp [processAgentRequest, executeAgentLogic]
  · simp [processAgentRequest, updateMetrics, dget_dmodify_self, hinst]
  · cases hm : dget st.metrics agentId <;>
      simp [processAgentRequest, updateMetrics, dget_dset_self, hm]
  · simp [processAgentRequest]
  · simp [processAgentRequest, updateMetrics, dget_dmodify_self, hinst]
  · cases hm : dget st.metrics agentId <;>
      simp [processAgentRequest, updateMetrics, dget_dset_self, hm]

/-- Witness for the amended C2 theorem at a concrete state. -/
theorem processAgentRequest_failure_paths_witness :
    (processAgentRequest stC2 "general_assistant" true 0 "msg" 10
        (Except.error "x") 1).2 =
      some "I apologize, but I encountered an error while processing your request: x" :=
  (processAgentRequest_failure_paths stC2 "general_assistant" 0 "msg" 10 "x" 1
      instC2 (Except.ok "y") (by decide)).1.1

/-! ## MCP server and tool registry (mcp_integration.py) -/

/-- MCP tool definition (class MCPTool); the input schema is not needed by
the registry claims. -/
structure MCPToolDef where
  name : String
  description : String
  serverName : String
deriving DecidableEq, Repr

/-- Runtime state of one MCP server process (class MCPServerProcess) as
far as the claims need it: `hasProcess` models `self.process` (and its
stdio pipes) being available, `isRunning` the `is_running` flag, `tools`
the discovered tool list, `timeout` the configured timeout. -/
structure MCPServerProcessState where
  name : String
  hasProcess : Bool
  isRunning : Bool
  tools : List MCPToolDef
  timeout : Nat
deriving DecidableEq, Repr

/-- Registry state of MCPServerManager: the server map (`self.servers`)
and the flat tool-name index (`self.tools`). -/
structure MCPManagerState where
  servers : List (String × MCPServerProcessState)
  tools : List (String × MCPToolDef)
deriving DecidableEq, Repr

/-- Embedding of `MCPServerManager.restart_server` (lines 442-475).
`startResult` models `MCPServerProcess.start()` on the fresh process: ok
with the discovered tool list, or error when the spawn fails (start stops
the half-started new process and re-raises; the except block of
restart_server then returns False, leaving the registry as it stood after
the old-tool removal). Stopping the old server mutates the object still
referenced by the server map (`is_running = False`, process handle
released). -/
def restartServer (st : MCPManagerState) (serverName : String)
    (startResult : Except String (List MCPToolDef)) : MCPManagerState × Bool :=
  match dget st.servers serverName with
  | none => (st, false)
  | some server =>
      let stopped := { server with hasProcess := false, isRunning := false }
      let st1 := { st with servers := dset st.servers serverName stopped }
      let st2 := { st1 with
                     tools := st1.tools.filter
                       (fun p => p.2.serverName ≠ serverName) }
      match startResult with
      | Except.error _ => (st2, false)
      | Except.ok newTools =>
          let newServer : MCPServerProcessState :=
            { name := serverName
              hasProcess := true
              isRunning := true
              tools := newTools
              timeout := server.timeout }
          let st3 := { st2 with servers := dset st2.servers serverName newServer }
          let st4 := { st3 with
                         tools := newTools.foldl
                           (fun ts t => dset ts t.name t) st3.tools }
          (st4, true)

/-! ## Lemmas on the tool index (C3) -/

theorem dget_filter_pred {κ α : Type} [DecidableEq κ]
    (l : List (κ × α)) (p : κ × α → Bool) (k : κ) (v : α)
    (h : dget (l.filter p) k = some v) : p (k, v) = true := by
  have hm := dget_mem _ _ _ h
  exact (List.mem_filter.mp hm).2

theorem dget_filter_none {κ α : Type} [DecidableEq κ]
    (l : List (κ × α)) (p : κ × α → Bool) (k : κ)
    (h : ∀ v, (k, v) ∈ l → p (k, v) = false) : dget (l.filter p) k = none := by
  induction l with
  | nil => simp [dget]
  | cons q rest ih =>
      obtain ⟨a, b⟩ := q
      by_cases ha : a = k
      · subst ha
        have hb := h b (List.mem_cons_self _ _)
        simp [List.filter_cons, hb]
        exact ih (fun v hv => h v (List.mem_cons_of_mem _ hv))
      · cases hq : p (a, b) with
        | true =>
            simp [List.filter_cons, hq, dget, ha]
            exact ih (fun v hv => h v (List.mem_cons_of_mem _ hv))
        | false =>
            simp [List.filter_cons, hq]
            exact ih (fun v hv => h v (List.mem_cons_of_mem _ hv))

theorem dget_foldl_dset_of_not_mem (l : List MCPToolDef)
    (ts : List (String × MCPToolDef)) (k : String)
    (h : ∀ t ∈ l, t.name ≠ k) :
    dget (l.foldl (fun a t => dset a t.name t) ts) k = dget ts k := by
  induction l generalizing ts with
  | nil => rfl
  | cons t rest ih =>
      rw [List.foldl_cons, ih _ (fun u hu => h u (List.mem_cons_of_mem _ hu))]
      exact dget_dset_ne ts t.name k t (h t (List.mem_cons_self _ _))

theorem dget_foldl_dset_isSome (l : List MCPToolDef)
    (ts : List (String × MCPToolDef)) (k : String)
    (h : ∃ t ∈ l, t.name = k) :
    (dget (l.foldl (fun a t => dset a t.name t) ts) k).isSome = true := by
  induction l generalizing ts with
  | nil => obtain ⟨t, ht, _⟩ := h; simp at ht
  | cons t rest ih =>
      rw [List.foldl_cons]
      by_cases h2 : ∃ u ∈ rest, u.name = k
      · exact ih _ h2
      · obtain ⟨u, hu, huk⟩ := h
        have hut : u = t := by
          rcases List.mem_cons.mp hu with h3 | h3
          · exact h3
          · exact absurd ⟨u, h3, huk⟩ h2
        subst hut
        rw [dget_foldl_dset_of_not_mem rest _ k
          (fun v hv hvk => h2 ⟨v, hv, hvk⟩)]
        rw [huk] at *
        simp [dget_dset_self]

/-! ## Theorems for claim C3 -/

/-- Concrete tool used by the C3 theorems. -/
def toolC3 : MCPToolDef := ⟨"t", "demo tool", "s"⟩

/-- Concrete registry used by the C3 theorems. -/
def stC3 : MCPManagerState :=
  ⟨[("s", ⟨"s", true, true, [toolC3], 30⟩)], [("t", toolC3)]⟩

/-- C3 counterexample: when the new start fails during a restart, the
process is NOT left absent from the registry — the except block returns
False with the old, stopped server object still registered under its name
(its tools have been removed, leaving a half-registered server entry).
This contradicts the claim that a failed restart leaves the process absent
with no stale server entry. -/
theorem restartServer_failure_counterexample :
    (restartServer stC3 "s" (Except.error "spawn failed")).2 = false ∧
    (dget (restartServer stC3 "s" (Except.error "spawn failed")).1.servers
        "s").isSome = true ∧
    dget (restartServer stC3 "s" (Except.error "spawn failed")).1.tools "t" =
      none := by
  refine ⟨?_, ?_, ?_⟩ <;> decide

/-- C3 amended: a successful restart swaps the tool index — every
pre-restart tool name owned by the process that is not re-discovered is
absent afterwards, every newly discovered tool name is present, and the
server entry is replaced by the fresh running process. When the new start
fails, the tools of the process are removed from the index (no tool owned
by it remains resolvable) but the process is NOT absent from the registry:
the old, stopped server object remains registered under its name. -/
theorem restartServer_swap (st : MCPManagerState) (sname : String)
    (srv : MCPServerProcessState) (e : String) (newTools : List MCPToolDef)
    (hsrv : dget st.servers sname = some srv)
    (hfun : ∀ p ∈ st.tools, dget st.tools p.1 = some p.2) :
    ((restartServer st sname (Except.error e)).2 = false ∧
      dget (restartServer st sname (Except.error e)).1.servers sname =
        some { srv with hasProcess := false, isRunning := false } ∧
      (∀ tn t, dget (restartServer st sname (Except.error e)).1.tools tn =
          some t → t.serverName ≠ sname)) ∧
    ((restartServer st sname (Except.ok newTools)).2 = true ∧
      dget (restartServer st sname (Except.ok newTools)).1.servers sname =
        some { name := sname
               hasProcess := true
               isRunning := true
               tools := newTools
               timeout := srv.timeout } ∧
      (∀ t ∈ newTools,
        (dget (restartServer st sname (Except.ok newTools)).1.tools
            t.name).isSome = true) ∧
      (∀ tn t, dget st.tools tn = some t → t.serverName = sname →
        (∀ u ∈ newTools, u.name ≠ tn) →
        dget (restartServer st sname (Except.ok newTools)).1.tools tn =
          none)) := by
  have hfilterNone : ∀ tn t, dget st.tools tn = some t → t.serverName = sname →
      dget (st.tools.filter (fun p => p.2.serverName ≠ sname)) tn = none := by
    intro tn t ht hts
    apply dget_filter_none
    intro v hv
    have hd := hfun (tn, v) hv
    rw [ht] at hd
    have hvt : v = t := by injection hd with h2; exact h2.symm
    subst hvt
    simp [hts]
  constructor
  · refine ⟨?_, ?_, ?_⟩
    · simp [restartServer, hsrv]
    · simp [restartServer, hsrv, dget_dset_self]
    · intro tn t h
      simp only [restartServer, hsrv] at h
      have := dget_filter_pred _ _ _ _ h
      simpa using this
  · refine ⟨?_, ?_, ?_, ?_⟩
    · simp [restartServer, hsrv]
    · simp [restartServer, hsrv, dget_dset_self]
    · intro t ht
      simp only [restartServer, hsrv]
      exact dget_foldl_dset_isSome newTools _ t.name ⟨t, ht, rfl⟩
    · intro tn t ht hts hnot
      simp only [restartServer, hsrv]
      rw [dget_foldl_dset_of_not_mem newTools _ tn hnot]
      exact hfilterNone tn t ht hts

/-- Witness for the amended C3 theorem on the concrete registry. -/
theorem restartServer_swap_witness :
    (restartServer stC3 "s" (Except.ok [⟨"t2", "new tool", "s"⟩])).2 = true ∧
    dget (restartServer stC3 "s" (Except.ok [⟨"t2", "new tool", "s"⟩])).1.tools
        "t" = none := by
  have h := restartServer_swap stC3 "s" ⟨"s", true, true, [toolC3], 30⟩
    "unused" [⟨"t2", "new tool", "s"⟩] (by decide)
    (by
      intro p hp
      simp [stC3] at hp
      subst hp
      decide)
  exact ⟨h.2.1, h.2.2.2.2 "t" toolC3 (by decide) (by decide)
    (by
      intro u hu
      simp at hu
      subst hu
      decide)⟩

/-! ## Stdio tool calls (C7, C8) -/

/-- Shape of the single response line read by `_call_tool_stdio`. -/
inductive MCPResponseShape where
  | resultField (v : String)
  | errorField (msg : String)
  | malformed
deriving DecidableEq, Repr

/-- Outcome of the bounded read `asyncio.wait_for(readline, timeout)`:
the read timed out, the process closed its output (empty line), or one
response line arrived. -/
inductive StdioReadResult where
  | timedOut
  | emptyLine
  | line (resp : MCPResponseShape)
deriving DecidableEq, Repr

/-- Error taxonomy of a process-level tool call, following the design
names: `toolTimeout` is the `asyncio.TimeoutError` raised by the timed-out
read, `processTerminated` the `RuntimeError("No response from MCP
server")` raised on an empty read, `toolInvocationError` the
`RuntimeError("MCP tool error: ...")` raised on an error response, and so
on. -/
inductive ToolCallError where
  | processNotAvailable
  | toolTimeout
  | toolInvocationError (msg : String)
  | invalidResponseFormat
  | processTerminated
deriving DecidableEq, Repr

/-- Python `str(e)` for each process-level error (an
`asyncio.TimeoutError` stringifies to the empty string). -/
def toolCallErrorMessage : ToolCallError → String
  | ToolCallError.processNotAvailable => "MCP server process not available"
  | ToolCallError.toolTimeout => ""
  | ToolCallError.toolInvocationError m => "MCP tool error: " ++ m
  | ToolCallError.invalidResponseFormat => "Invalid MCP response format"
  | ToolCallError.processTerminated => "No response from MCP server"

/-- Embedding of `MCPServerProcess._call_tool_stdio` (lines 172-211): the
request write is assumed delivered, the read outcome is `read`; every
failure is logged and re-raised; no branch touches `is_running` or any
other process field, so the process state passes through unchanged. -/
def callToolStdio (p : MCPServerProcessState) (read : StdioReadResult) :
    Except ToolCallError String × MCPServerProcessState :=
  if p.hasProcess = false then
    (Except.error ToolCallError.processNotAvailable, p)
  else
    match read with
    | StdioReadResult.timedOut => (Except.error ToolCallError.toolTimeout, p)
    | StdioReadResult.emptyLine =>
        (Except.error ToolCallError.processTerminated, p)
    | StdioReadResult.line (MCPResponseShape.resultField v) => (Except.ok v, p)
    | StdioReadResult.line (MCPResponseShape.errorField m) =>
        (Except.error (ToolCallError.toolInvocationError m), p)
    | StdioReadResult.line MCPResponseShape.malformed =>
        (Except.error ToolCallError.invalidResponseFormat, p)

/-! ## Theorems for claim C7 -/

/-- C7: when the stdio read of a tool call times out, the call fails with
the timeout error (`ToolTimeout`) and the process state — in particular
its `is_running` flag — is left unchanged: a timeout is a call failure,
not a process failure. -/
theorem callToolStdio_timeout_frame (p : MCPServerProcessState)
    (h : p.hasProcess = true) :
    (callToolStdio p StdioReadResult.timedOut).1 =
      Except.error ToolCallError.toolTimeout ∧
    (callToolStdio p StdioReadResult.timedOut).2.isRunning = p.isRunning ∧
    (callToolStdio p StdioReadResult.timedOut).2 = p := by
  refine ⟨?_, ?_, ?_⟩ <;> simp [callToolStdio, h]

/-- Witness for the C7 theorem on a concrete running process. -/
theorem callToolStdio_timeout_frame_witness :
    (callToolStdio ⟨"srv7", true, true, [], 30⟩ StdioReadResult.timedOut).1 =
      Except.error ToolCallError.toolTimeout ∧
    (callToolStdio ⟨"srv7", true, true, [], 30⟩
        StdioReadResult.timedOut).2.isRunning = true :=
  ⟨(callToolStdio_timeout_frame ⟨"srv7", true, true, [], 30⟩ rfl).1,
    (callToolStdio_timeout_frame ⟨"srv7", true, true, [], 30⟩ rfl).2.1⟩

/-! ## Registry-level tool call (C8) -/

/-- Error taxonomy of `MCPServerManager.call_tool`: the
`ValueError("Tool ... not found")` for an unknown name, the
`RuntimeError("Server ... not available")` for a missing owner, and any
re-raised process-level error. -/
inductive ManagerCallError where
  | unknownTool (name : String)
  | serverNotAvailable (name : String)
  | processError (e : ToolCallError)
deriving DecidableEq, Repr

/-- Python `str(e)` for each registry-level error. -/
def managerErrorMessage : ManagerCallError → String
  | ManagerCallError.unknownTool n => "Tool " ++ n ++ " not found"
  | ManagerCallError.serverNotAvailable n => "Server " ++ n ++ " not available"
  | ManagerCallError.processError e => toolCallErrorMessage e

/-- Embedding of `MCPServerManager.call_tool` (lines 380-390): resolve the
tool in the flat index, resolve the owning server by the tool's recorded
server name, and delegate; `procCall` models the delegated
`server.call_tool(tool_name, arguments)` outcome per server name. -/
def managerCallTool (st : MCPManagerState) (toolName : String)
    (args : List (String × String))
    (procCall : String → List (String × String) → Except ToolCallError String) :
    Except ManagerCallError String :=
  match dget st.tools toolName with
  | none => Except.error (ManagerCallError.unknownTool toolName)
  | some tool =>
      match dget st.servers tool.serverName with
      | none => Except.error (ManagerCallError.serverNotAvailable tool.serverName)
      | some _ =>
          match procCall tool.serverName args with
          | Except.ok v => Except.ok v
          | Except.error e2 => Except.error (ManagerCallError.processError e2)

/-! ## Theorems for claim C8 -/

/-- C8: the registry-level call fails with `UnknownTool` exactly when the
name is absent from the tool index; and when the name is present and the
recorded owning server exists, the call delegates to that process — its
result is the delegated outcome (success value passed through, process
error wrapped). -/
theorem managerCallTool_correct (st : MCPManagerState) (toolName : String)
    (args : List (String × String))
    (procCall : String → List (String × String) → Except ToolCallError String) :
    (managerCallTool st toolName args procCall =
        Except.error (ManagerCallError.unknownTool toolName) ↔
      dget st.tools toolName = none) ∧
    (∀ tool, dget st.tools toolName = some tool →
      (dget st.servers tool.serverName).isSome = true →
      managerCallTool st toolName args procCall =
        (match procCall tool.serverName args with
          | Except.ok v => Except.ok v
          | Except.error e2 =>
              Except.error (ManagerCallError.processError e2))) := by
  constructor
  · constructor
    · intro h
      cases ht : dget st.tools toolName with
      | none => rfl
      | some tool =>
          exfalso
          simp only [managerCallTool, ht] at h
          cases hs : dget st.servers tool.serverName with
          | none => simp [hs] at h
          | some srv =>
              simp only [hs] at h
              cases hp : procCall tool.serverName args with
              | ok v => simp [hp] at h
              | error e2 => simp [hp] at h
    · intro h
      simp [managerCallTool, h]
  · intro tool ht hs
    cases hsrv : dget st.servers tool.serverName with
    | none => rw [hsrv] at hs; simp at hs
    | some srv => simp [managerCallTool, ht, hsrv]

/-- Concrete registry used by the C8 witness. -/
def stC8 : MCPManagerState :=
  ⟨[("s8", ⟨"s8", true, true, [⟨"t8", "demo", "s8"⟩], 30⟩)],
    [("t8", ⟨"t8", "demo", "s8"⟩)]⟩

/-- Witness for the C8 theorem: delegation on a concrete registry whose
process call succeeds. -/
theorem managerCallTool_correct_witness :
    managerCallTool stC8 "t8" [] (fun _ _ => Except.ok "res8") =
      Except.ok "res8" := by
  have h := (managerCallTool_correct stC8 "t8" []
    (fun _ _ => Except.ok "res8")).2 ⟨"t8", "demo", "s8"⟩ (by decide) (by decide)
  simpa using h

/-! ## WebSocket / SSE fanout (websocket_manager.py) -/

/-- One SSE subscriber queue: `broken` models a `queue.put` that raises
(caught and logged per queue); `items` holds the delivered events in FIFO
order — a put appends at the end. -/
structure SSEQueue where
  broken : Bool
  items : List String
deriving DecidableEq, Repr

/-- One active websocket connection; `sendFails` models `send_text`
raising on a broken connection. -/
structure WSConnection where
  sendFails : Bool
deriving DecidableEq, Repr

/-- State of WebSocketManager: `self.active_connections`,
`self.connection_metadata` (message counts), and `self.sse_subscribers`. -/
structure WSManagerState where
  activeConnections : List (String × WSConnection)
  connectionMetadata : List (String × Nat)
  sseSubscribers : List (String × List SSEQueue)
deriving DecidableEq, Repr

/-- Embedding of `WebSocketManager.disconnect` (lines 54-69). -/
def wsDisconnect (st : WSManagerState) (sessionId : String) : WSManagerState :=
  { st with
      activeConnections := ddel st.activeConnections sessionId
      connectionMetadata := ddel st.connectionMetadata sessionId }

/-- One queue put of `_publish_sse`: the put on a broken queue raises, is
caught per queue, and leaves that queue unchanged; otherwise the event is
appended at the end. -/
def ssePut (msg : String) (q : SSEQueue) : SSEQueue :=
  if q.broken then q else { q with items := q.items ++ [msg] }

/-- Embedding of `WebSocketManager._publish_sse` (lines 230-246): when the
session has subscribers, attempt a put on every queue; a failure on one
queue does not stop the loop. -/
def publishSse (st : WSManagerState) (sessionId : String) (msg : String) :
    WSManagerState :=
  match dget st.sseSubscribers sessionId with
  | none => st
  | some queues =>
      { st with
          sseSubscribers :=
            dset st.sseSubscribers sessionId (queues.map (ssePut msg)) }

/-- Embedding of `WebSocketManager.send_message` (lines 71-97): the
websocket send runs first (when the session has a connection) inside the
same try as the SSE fanout; a raising `send_text` jumps to the except
block, which removes the broken connection — the SSE fanout is then
skipped for that event. -/
def sendMessage (st : WSManagerState) (sessionId : String) (msg : String) :
    WSManagerState :=
  match dget st.activeConnections sessionId with
  | some conn =>
      if conn.sendFails then wsDisconnect st sessionId
      else
        let st1 := { st with
                       connectionMetadata :=
                         dmodify st.connectionMetadata sessionId (fun c => c + 1) }
        publishSse st1 sessionId msg
  | none => publishSse st sessionId msg

/-- Sequential publication of a list of events to one session. -/
def publishAll (st : WSManagerState) (sessionId : String) (msgs : List String) :
    WSManagerState :=
  msgs.foldl (fun s m => sendMessage s sessionId m) st

/-- Result of delivering a whole event sequence to one queue. -/
def putAll (msgs : List String) (q : SSEQueue) : SSEQueue :=
  if q.broken then q else { q with items := q.items ++ msgs }

/-! ## Lemmas on the fanout (C9) -/

theorem ssePut_putAll (m : String) (ms : List String) (q : SSEQueue) :
    putAll ms (ssePut m q) = putAll (m :: ms) q := by
  cases hb : q.broken with
  | true => simp [ssePut, putAll, hb]
  | false => simp [ssePut, putAll, hb]

theorem map_putAll_nil (queues : List SSEQueue) :
    queues.map (putAll []) = queues := by
  induction queues with
  | nil => rfl
  | cons q qs ihq =>
      have hq : putAll [] q = q := by
        obtain ⟨b, its⟩ := q
        cases b <;> simp [putAll]
      simp [hq, ihq]

theorem map_putAll_cons (m : String) (ms : List String)
    (queues : List SSEQueue) :
    (queues.map (ssePut m)).map (putAll ms) = queues.map (putAll (m :: ms)) := by
  induction queues with
  | nil => rfl
  | cons q qs ihq => simp [ssePut_putAll, ihq]

theorem publishAll_fifo (sessionId : String) (msgs : List String) :
    ∀ (st : WSManagerState) (queues : List SSEQueue),
      dget st.activeConnections sessionId = none →
      dget st.sseSubscribers sessionId = some queues →
      dget (publishAll st sessionId msgs).sseSubscribers sessionId =
        some (queues.map (putAll msgs)) := by
  induction msgs with
  | nil =>
      intro st queues hconn hq
      rw [map_putAll_nil]
      exact hq
  | cons m ms ih =>
      intro st queues hconn hq
      have h1 : publishAll st sessionId (m :: ms) =
          publishAll (sendMessage st sessionId m) sessionId ms := rfl
      have hstep : sendMessage st sessionId m =
          { st with
              sseSubscribers :=
                dset st.sseSubscribers sessionId (queues.map (ssePut m)) } := by
        simp [sendMessage, hconn, publishSse, hq]
      rw [h1, hstep]
      have := ih
        { st with
            sseSubscribers :=
              dset st.sseSubscribers sessionId (queues.map (ssePut m)) }
        (queues.map (ssePut m)) hconn
        (dget_dset_self st.sseSubscribers sessionId (queues.map (ssePut m)))
      rw [map_putAll_cons] at this
      exact this

/-! ## Theorems for claim C9 -/

/-- Concrete fanout state used by the C9 counterexample: session s9 has a
websocket connection whose send raises, and one healthy SSE subscriber
queue. -/
def stC9 : WSManagerState :=
  ⟨[("s9", ⟨true⟩)], [("s9", 0)], [("s9", [⟨false, []⟩])]⟩

/-- C9: evaluation of the code at the failing input. Publishing to a
session whose websocket send raises does NOT deliver the event to the
registered SSE subscriber queue — the except block removes the broken
connection and the SSE fanout is skipped for that event, so the healthy
queue stays empty. This contradicts the claim (and the code comment
"Always publish to SSE subscribers regardless of WebSocket status"): the
try/except scope lets a websocket send failure abort the SSE fanout. -/
theorem publish_ws_failure_skips_sse :
    dget (sendMessage stC9 "s9" "evt").sseSubscribers "s9" =
      some [⟨false, []⟩] ∧
    dget (sendMessage stC9 "s9" "evt").activeConnections "s9" = none := by
  constructor <;> decide

/-- Supplementary characterization of the fanout away from the failing
case: the SSE fanout delivers the event to every subscriber queue of the
session whose put succeeds, a put failure on one queue does not prevent
delivery to the others, and each queue receives events in publish order
(FIFO per subscriber) — provided the websocket send phase does not raise
(session without a connection, or with a healthy one). When the websocket
send raises, the whole publish aborts: the broken connection is removed
and no SSE subscriber receives that event. -/
theorem publish_fanout (st : WSManagerState) (sessionId : String)
    (queues : List SSEQueue) (msg : String) (msgs : List String)
    (hconn : dget st.activeConnections sessionId = none)
    (hq : dget st.sseSubscribers sessionId = some queues) :
    (dget (sendMessage st sessionId msg).sseSubscribers sessionId =
        some (queues.map (ssePut msg)) ∧
      (∀ q : SSEQueue, q.broken = false →
        ssePut msg q = { q with items := q.items ++ [msg] }) ∧
      (∀ q : SSEQueue, q.broken = true → ssePut msg q = q)) ∧
    (dget (publishAll st sessionId msgs).sseSubscribers sessionId =
        some (queues.map (putAll msgs)) ∧
      (∀ q : SSEQueue, q.broken = false →
        putAll msgs q = { q with items := q.items ++ msgs })) ∧
    (∀ (st2 : WSManagerState) (conn : WSConnection) (queues2 : List SSEQueue),
      dget st2.activeConnections sessionId = some conn →
      conn.sendFails = false →
      dget st2.sseSubscribers sessionId = some queues2 →
      dget (sendMessage st2 sessionId msg).sseSubscribers sessionId =
        some (queues2.map (ssePut msg))) ∧
    (∀ (st2 : WSManagerState) (conn : WSConnection),
      dget st2.activeConnections sessionId = some conn →
      conn.sendFails = true →
      sendMessage st2 sessionId msg = wsDisconnect st2 sessionId) := by
  refine ⟨⟨?_, ?_, ?_⟩, ⟨?_, ?_⟩, ?_, ?_⟩
  · simp [sendMessage, hconn, publishSse, hq, dget_dset_self]
  · intro q hb; simp [ssePut, hb]
  · intro q hb; simp [ssePut, hb]
  · exact publishAll_fifo sessionId msgs st queues hconn hq
  · intro q hb; simp [putAll, hb]
  · intro st2 conn queues2 h1 h2 h3
    simp [sendMessage, h1, h2, publishSse, h3, dget_dset_self]
  · intro st2 conn h1 h2
    simp [sendMessage, h1, h2]

/-- Concrete fanout state used by the C9 witness: no websocket connection,
one healthy and one broken SSE subscriber queue. -/
def stC9w : WSManagerState := ⟨[], [], [("sw", [⟨false, []⟩, ⟨true, []⟩])]⟩

/-- Witness for the amended C9 theorem: two events published in order
reach the healthy queue in FIFO order while the broken queue stays
unchanged and does not block delivery. -/
theorem publish_fanout_witness :
    dget (publishAll stC9w "sw" ["e1", "e2"]).sseSubscribers "sw" =
      some [⟨false, ["e1", "e2"]⟩, ⟨true, []⟩] := by
  have h := (publish_fanout stC9w "sw" [⟨false, []⟩, ⟨true, []⟩] "x"
    ["e1", "e2"] (by decide) (by decide)).2.1.1
  simpa [putAll] using h

/-! ## MCP tool wrapper (mcp_tools_wrapper.py) -/

/-- Truthy input schema of a tool: the property names and the required
argument names (`input_schema.get("properties"/"required")`). A falsy
schema (`None` or `{}`) is modelled as `Option.none` on the wrapper. -/
structure InputSchema where
  properties : List String
  required : List String
deriving DecidableEq, Repr

/-- Wrapper state (class MCPToolWrapper): tool name, owning server name,
and optional input schema. Argument values are abstracted to strings. -/
structure MCPToolWrapper where
  name : String
  serverName : String
  inputSchema : Option InputSchema
deriving DecidableEq, Repr

/-- Embedding of `MCPToolWrapper._validate_arguments` (lines 52-75): with
a falsy schema the kwargs pass through unchanged; otherwise raise a
ValueError at the first missing required argument, else keep only the
arguments named in the schema properties (unknown arguments are logged and
dropped). -/
def validateArguments (w : MCPToolWrapper) (kwargs : List (String × String)) :
    Except String (List (String × String)) :=
  match w.inputSchema with
  | none => Except.ok kwargs
  | some schema =>
      match schema.required.find? (fun r => ! kwargs.any (fun p => p.1 == r)) with
      | some missing => Except.error ("Missing required argument: " ++ missing)
      | none =>
          Except.ok (kwargs.filter (fun p => schema.properties.contains p.1))

/-- Result dictionary of `MCPToolWrapper.run_async`. -/
structure RunResult where
  success : Bool
  result : Option String
  error : Option String
  toolName : String
  serverName : String
deriving DecidableEq, Repr

/-- Embedding of `MCPToolWrapper.run_async` (lines 27-50): validate, call
the registry, and wrap the outcome; the surrounding try/except converts
every exception — validation ValueError, unknown tool, unavailable server,
process error — into the failure dictionary with the error message string,
so the function never propagates an exception. -/
def runAsync (w : MCPToolWrapper) (st : MCPManagerState)
    (procCall : String → List (String × String) → Except ToolCallError String)
    (kwargs : List (String × String)) : RunResult :=
  match validateArguments w kwargs with
  | Except.error e => ⟨false, none, some e, w.name, w.serverName⟩
  | Except.ok validated =>
      match managerCallTool st w.name validated procCall with
      | Except.ok r => ⟨true, some r, none, w.name, w.serverName⟩
      | Except.error e =>
          ⟨false, none, some (managerErrorMessage e), w.name, w.serverName⟩

/-! ## Theorems for claim C10 -/

/-- C10: run_async always returns a result dictionary (it never propagates
an exception): success=true with the tool result exactly when validation
and the registry call both succeed, and success=false carrying the error
message string when anything fails — a missing required argument, an
unknown tool, an unavailable server, or a tool/process error. -/
theorem runAsync_total_result (w : MCPToolWrapper) (st : MCPManagerState)
    (procCall : String → List (String × String) → Except ToolCallError String)
    (kwargs : List (String × String)) :
    ((runAsync w st procCall kwargs).success = true ∨
      ((runAsync w st procCall kwargs).success = false ∧
        ((runAsync w st procCall kwargs).error).isSome = true)) ∧
    (∀ v r, validateArguments w kwargs = Except.ok v →
      managerCallTool st w.name v procCall = Except.ok r →
      runAsync w st procCall kwargs = ⟨true, some r, none, w.name, w.serverName⟩) ∧
    (∀ e, validateArguments w kwargs = Except.error e →
      runAsync w st procCall kwargs = ⟨false, none, some e, w.name, w.serverName⟩) ∧
    (∀ v e, validateArguments w kwargs = Except.ok v →
      managerCallTool st w.name v procCall = Except.error e →
      runAsync w st procCall kwargs =
        ⟨false, none, some (managerErrorMessage e), w.name, w.serverName⟩) := by
  refine ⟨?_, ?_, ?_, ?_⟩
  · cases hv : validateArguments w kwargs with
    | error e => right; simp [runAsync, hv]
    | ok v =>
        cases hc : managerCallTool st w.name v procCall with
        | ok r => left; simp [runAsync, hv, hc]
        | error e => right; simp [runAsync, hv, hc]
  · intro v r hv hc
    simp [runAsync, hv, hc]
  · intro e hv
    simp [runAsync, hv]
  · intro v e hv hc
    simp [runAsync, hv, hc]

/-- Concrete wrapper used by the C10 witness: one required argument. -/
def wC10 : MCPToolWrapper := ⟨"t8", "s8", some ⟨["x"], ["x"]⟩⟩

/-- Witness for the C10 theorem: a call with the required argument missing
returns the failure dictionary with the ValueError message. -/
theorem runAsync_total_result_witness :
    runAsync wC10 stC8 (fun _ _ => Except.ok "res8") [] =
      ⟨false, none, some "Missing required argument: x", "t8", "s8"⟩ :=
  (runAsync_total_result wC10 stC8 (fun _ _ => Except.ok "res8") []).2.2.1
    "Missing required argument: x" rfl

end Agentic
